import Mathlib

/-!
Verification development for two coordination cores of a distributed log
system: the Epoch Metadata Coordinator backed by a Zookeeper-like
coordination service (`ZookeeperEpochStore.cpp`) and the Node Health
Monitor (`ServerHealthMonitor.cpp`). The C++ sources are shallowly
embedded as executable Lean definitions; theorems check the
natural-language design document against them.
-/

namespace LD

/-- The core error taxonomy (`Status` / `E::` codes) used by the epoch
store.  Only the codes reachable from the embedded functions appear. -/
inductive Status where
  | OK
  | NOTFOUND
  | EXISTS
  | AGAIN
  | UPTODATE
  | STALE
  | INVALID_PARAM
  | ABORTED
  | BADMSG
  | EMPTY
  | DISABLED
  | TOOBIG
  | FAILED
  | INTERNAL
  | NOTCONN
  | ACCESS
  | SHUTDOWN
  | VERSION_MISMATCH
  | CONNFAILED
  | UNKNOWN
  deriving DecidableEq, Repr

/-! ### Zookeeper C client return codes and session states

Numeric values of the `ZAPIERROR`/`ZSYSTEMERROR` ranges of the Zookeeper
C client, as used by the source. -/

def ZOK : Int := 0
def ZRUNTIMEINCONSISTENCY : Int := -2
def ZCONNECTIONLOSS : Int := -4
def ZOPERATIONTIMEOUT : Int := -7
def ZBADARGUMENTS : Int := -8
def ZINVALIDSTATE : Int := -9
def ZNONODE : Int := -101
def ZNOAUTH : Int := -102
def ZBADVERSION : Int := -103
def ZNODEEXISTS : Int := -110
def ZSESSIONEXPIRED : Int := -112
def ZAUTHFAILED : Int := -115
def ZCLOSING : Int := -116

def ZOO_EXPIRED_SESSION_STATE : Int := -112
def ZOO_AUTH_FAILED_STATE : Int := -113

/-- Modelled from the spec: `ZookeeperClientBase::toStatus`, the client
library's own mapping from Zookeeper return codes to `Status`, is not
part of the two source files (only its callers are).  The spec says
`NONODE → NOT_FOUND`, a version-mismatch return code yields
`VERSION_MISMATCH` (then remapped by the completion-path translation),
`EXISTS` for a node that already exists, `SHUTDOWN` when the client is
closing, and that any unknown code falls through to `UNKNOWN`. -/
def toStatus (rc : Int) : Status :=
  if rc = ZOK then .OK
  else if rc = ZNONODE then .NOTFOUND
  else if rc = ZNODEEXISTS then .EXISTS
  else if rc = ZBADVERSION then .VERSION_MISMATCH
  else if rc = ZNOAUTH then .ACCESS
  else if rc = ZAUTHFAILED then .ACCESS
  else if rc = ZCONNECTIONLOSS then .CONNFAILED
  else if rc = ZSESSIONEXPIRED then .NOTCONN
  else if rc = ZCLOSING then .SHUTDOWN
  else .UNKNOWN

/-- `zkCfStatus` (`ZookeeperEpochStore.cpp`, lines 160-188): translation
of a coordination-service return code inside a completion function.
`ZRUNTIMEINCONSISTENCY` maps to `FAILED` (with a critical log and a stat
bump, not modelled); otherwise the client library's mapping is used,
with `VERSION_MISMATCH` remapped to `AGAIN`. An `UNKNOWN` status is
returned as-is after an assertion failure log. -/
def zkCfStatus (rc : Int) : Status :=
  if rc = ZRUNTIMEINCONSISTENCY then .FAILED
  else
    let status := toStatus rc
    if status = .VERSION_MISMATCH then .AGAIN
    else status

/-- `ZookeeperEpochStore::zkOpStatus` (lines 120-158): translation of
the return code of issuing an operation.  `ZBADARGUMENTS` maps to
`INTERNAL`; `ZINVALIDSTATE` queries the current session state
(`zstate`): expired session maps to `NOTCONN`, failed auth to `ACCESS`,
anything else to `FAILED`.  All other codes use the client library's
mapping. -/
def zkOpStatus (rc : Int) (zstate : Int) : Status :=
  if rc = ZBADARGUMENTS then .INTERNAL
  else if rc = ZINVALIDSTATE then
    if zstate = ZOO_EXPIRED_SESSION_STATE then .NOTCONN
    else if zstate = ZOO_AUTH_FAILED_STATE then .ACCESS
    else .FAILED
  else toStatus rc

/-- `ZookeeperEpochStore::postRequestCompletion` (lines 464-478): the
`setData` / multi-op completion path.  The mapped status is posted to
the request's caller unless it is `SHUTDOWN` while the epoch store's
shutting-down flag is observed set, in which case the completion is
dropped silently.  `some st` models a posted completion with status
`st`; `none` models the dropped completion. -/
def postRequestCompletion (rc : Int) (shuttingDown : Bool) : Option Status :=
  if zkCfStatus rc ≠ Status.SHUTDOWN ∨ shuttingDown = false then
    some (zkCfStatus rc)
  else none

/-! ### Claim C1 -/

/-- Claim C1: for every completion of a `set_data` issued by the
optimistic RMW engine, a coordination-service return code meaning
version mismatch (one the client library maps to `VERSION_MISMATCH`) is
translated to `AGAIN` and never to `FAILED`, and the completion posted
to the caller for the lost optimistic write is `AGAIN`. -/
theorem set_data_version_mismatch_posts_again (rc : Int)
    (h : toStatus rc = Status.VERSION_MISMATCH) :
    zkCfStatus rc = Status.AGAIN ∧
    zkCfStatus rc ≠ Status.FAILED ∧
    (∀ shuttingDown : Bool,
      postRequestCompletion rc shuttingDown = some Status.AGAIN) := by
  have hrc : rc ≠ ZRUNTIMEINCONSISTENCY := by
    intro heq
    rw [heq] at h
    simp [toStatus, ZRUNTIMEINCONSISTENCY, ZOK, ZNONODE, ZNODEEXISTS,
      ZBADVERSION, ZNOAUTH, ZAUTHFAILED, ZCONNECTIONLOSS,
      ZSESSIONEXPIRED, ZCLOSING] at h
  have hcf : zkCfStatus rc = Status.AGAIN := by
    simp [zkCfStatus, hrc, h]
  refine ⟨hcf, by simp [hcf], ?_⟩
  intro shuttingDown
  simp [postRequestCompletion, hcf]

/-- Witness for claim C1: the concrete version-mismatch return code
`ZBADVERSION` is posted as `AGAIN` regardless of the shutdown flag. -/
theorem set_data_version_mismatch_posts_again_witness :
    toStatus ZBADVERSION = Status.VERSION_MISMATCH ∧
    zkCfStatus ZBADVERSION = Status.AGAIN ∧
    postRequestCompletion ZBADVERSION false = some Status.AGAIN := by
  refine ⟨by decide, ?_, ?_⟩
  · exact (set_data_version_mismatch_posts_again ZBADVERSION (by decide)).1
  · exact (set_data_version_mismatch_posts_again ZBADVERSION
      (by decide)).2.2 false

/-! ### Claim C9 -/

/-- Claim C9: the op-status translation of the RMW engine maps
`ZINVALIDSTATE` by querying the current session state — `NOTCONN` if
the session is expired, `ACCESS` if authentication failed, `FAILED`
otherwise — and maps `ZBADARGUMENTS` to `INTERNAL`. -/
theorem zkOpStatus_invalid_state_and_bad_arguments :
    (∀ zstate : Int, zkOpStatus ZBADARGUMENTS zstate = Status.INTERNAL) ∧
    zkOpStatus ZINVALIDSTATE ZOO_EXPIRED_SESSION_STATE = Status.NOTCONN ∧
    zkOpStatus ZINVALIDSTATE ZOO_AUTH_FAILED_STATE = Status.ACCESS ∧
    (∀ zstate : Int, zstate ≠ ZOO_EXPIRED_SESSION_STATE →
      zstate ≠ ZOO_AUTH_FAILED_STATE →
      zkOpStatus ZINVALIDSTATE zstate = Status.FAILED) := by
  refine ⟨?_, by decide, by decide, ?_⟩
  · intro zstate
    simp [zkOpStatus, ZBADARGUMENTS]
  · intro zstate h1 h2
    simp [zkOpStatus, ZBADARGUMENTS, ZINVALIDSTATE, h1, h2]

/-- Witness for claim C9: a connected-session state (value 3) at the
time of a `ZINVALIDSTATE` error maps to `FAILED`. -/
theorem zkOpStatus_invalid_state_and_bad_arguments_witness :
    zkOpStatus ZBADARGUMENTS 3 = Status.INTERNAL ∧
    zkOpStatus ZINVALIDSTATE 3 = Status.FAILED := by
  refine ⟨zkOpStatus_invalid_state_and_bad_arguments.1 3, ?_⟩
  exact zkOpStatus_invalid_state_and_bad_arguments.2.2.2 3
    (by decide) (by decide)

/-! ### The RMW completion path (`onGetZnodeComplete`) -/

/-- `ZookeeperEpochStoreRequest::NextStep`: the decision returned by a
request kind after seeing the current znode value. -/
inductive NextStep where
  | PROVISION
  | MODIFY
  | STOP
  | FAILED
  deriving DecidableEq, Repr

/-- The caller-supplied request-kind data consulted by
`onGetZnodeComplete`: the `onGotZnodeValue` decision function (which
also sets the request's internal `err`, modelled as the second
component), the size reported by `composeZnodeValue`, and the observed
value of the epoch store's shutting-down flag. -/
structure ZRQ where
  onGotZnodeValue : Option String → NextStep × Status
  composeSize : Int
  shuttingDown : Bool

/-- The externally visible effect of one step of the RMW engine. -/
inductive EmcAction where
  | post (st : Status)
  | dropSilently (st : Status)
  | provisionSubtree
  | setData (version : Int)
  deriving DecidableEq, Repr

/-- The `done:` label of `onGetZnodeComplete` (lines 453-461), shared
with `postRequestCompletion`: post the completion unless the status is
`SHUTDOWN` while the epoch store's shutting-down flag is set. -/
def emcDone (st : Status) (shuttingDown : Bool) : EmcAction :=
  if st ≠ Status.SHUTDOWN ∨ shuttingDown = false then EmcAction.post st
  else EmcAction.dropSilently st

/-- `ZookeeperEpochStore::onGetZnodeComplete` (lines 351-462): the
completion of the `getData` read driving one RMW cycle.  Translates the
return code, short-circuits on any non-OK-non-NOT_FOUND status, asks
the request what to do next, and either posts a completion, provisions
the log subtree, or issues the conditional `setData` with the observed
version. -/
def onGetZnodeComplete (maxLen : Int) (rc : Int) (value : String)
    (statVersion : Int) (zrq : ZRQ) : EmcAction :=
  if zkCfStatus rc ≠ Status.OK ∧ zkCfStatus rc ≠ Status.NOTFOUND then
    emcDone (zkCfStatus rc) zrq.shuttingDown
  else
    match zrq.onGotZnodeValue
        (if zkCfStatus rc = Status.NOTFOUND then none else some value) with
    | (NextStep.STOP, errSt) => emcDone errSt zrq.shuttingDown
    | (NextStep.FAILED, errSt) => emcDone errSt zrq.shuttingDown
    | (NextStep.PROVISION, _) =>
        if zrq.composeSize < 0 ∨ maxLen ≤ zrq.composeSize then
          emcDone Status.INTERNAL zrq.shuttingDown
        else EmcAction.provisionSubtree
    | (NextStep.MODIFY, _) =>
        if zrq.composeSize < 0 ∨ maxLen ≤ zrq.composeSize then
          emcDone Status.INTERNAL zrq.shuttingDown
        else EmcAction.setData statVersion

theorem emcDone_eq_drop {st st' : Status} {f : Bool}
    (h : emcDone st f = EmcAction.dropSilently st') :
    st' = Status.SHUTDOWN ∧ f = true := by
  unfold emcDone at h
  split at h
  · cases h
  · next hcond =>
    injection h with h
    push_neg at hcond
    subst h
    exact ⟨hcond.1, by simpa using hcond.2⟩

theorem emcDone_eq_post {st st' : Status} {f : Bool}
    (h : emcDone st f = EmcAction.post st') :
    st' = st ∧ ¬(st = Status.SHUTDOWN ∧ f = true) := by
  unfold emcDone at h
  split at h
  · next hcond =>
    injection h with h
    subst h
    refine ⟨rfl, ?_⟩
    rintro ⟨h1, h2⟩
    rcases hcond with hc | hc
    · exact hc h1
    · rw [h2] at hc; cases hc
  · cases h

/-! ### Claim C6 -/

/-- Claim C6: for every EMC request completion, the completion callback
is suppressed exactly when the mapped status is `SHUTDOWN` and the
epoch store's shutting-down flag is observed set; for every other
status, and for `SHUTDOWN` with the flag unset, the completion is
posted.  Stated both for the `getData` completion path
(`onGetZnodeComplete`) and for the write completion path
(`postRequestCompletion`). -/
theorem completion_suppressed_iff_shutdown (maxLen rc : Int)
    (value : String) (statVersion : Int) (zrq : ZRQ) (flag : Bool) :
    (∀ st : Status,
      onGetZnodeComplete maxLen rc value statVersion zrq =
          EmcAction.dropSilently st →
        st = Status.SHUTDOWN ∧ zrq.shuttingDown = true) ∧
    (∀ st : Status,
      onGetZnodeComplete maxLen rc value statVersion zrq =
          EmcAction.post st →
        ¬(st = Status.SHUTDOWN ∧ zrq.shuttingDown = true)) ∧
    (postRequestCompletion rc flag = none ↔
      (zkCfStatus rc = Status.SHUTDOWN ∧ flag = true)) := by
  refine ⟨?_, ?_, ?_⟩
  · intro st h
    rw [onGetZnodeComplete] at h
    split at h
    · exact emcDone_eq_drop h
    · split at h
      · exact emcDone_eq_drop h
      · exact emcDone_eq_drop h
      · split at h
        · exact emcDone_eq_drop h
        · cases h
      · split at h
        · exact emcDone_eq_drop h
        · cases h
  · intro st h
    rw [onGetZnodeComplete] at h
    split at h
    · exact fun hc => (emcDone_eq_post h).2 ((emcDone_eq_post h).1 ▸ hc)
    · split at h
      · exact fun hc => (emcDone_eq_post h).2 ((emcDone_eq_post h).1 ▸ hc)
      · exact fun hc => (emcDone_eq_post h).2 ((emcDone_eq_post h).1 ▸ hc)
      · split at h
        · exact fun hc => (emcDone_eq_post h).2 ((emcDone_eq_post h).1 ▸ hc)
        · cases h
      · split at h
        · exact fun hc => (emcDone_eq_post h).2 ((emcDone_eq_post h).1 ▸ hc)
        · cases h
  · unfold postRequestCompletion
    constructor
    · intro h
      split at h
      · cases h
      · next hcond =>
        push_neg at hcond
        exact ⟨hcond.1, by simpa using hcond.2⟩
    · rintro ⟨h1, h2⟩
      rw [if_neg]
      push_neg
      exact ⟨h1, by simp [h2]⟩

/-- Witness for claim C6: at the concrete client-closing return code
`ZCLOSING`, a set shutdown flag suppresses the write-path completion,
and an unset flag posts it. -/
theorem completion_suppressed_iff_shutdown_witness :
    postRequestCompletion ZCLOSING true = none ∧
    postRequestCompletion ZCLOSING false = some Status.SHUTDOWN := by
  constructor
  · exact (completion_suppressed_iff_shutdown 1024 ZCLOSING "" 0
      ⟨fun _ => (NextStep.STOP, Status.OK), 0, true⟩ true).2.2.mpr
      ⟨by decide, rfl⟩
  · decide

/-! ### Entry-point guards (`setLastCleanEpoch`, `createOrUpdateMetaData`) -/

/-- The tail-record fields consulted by `setLastCleanEpoch`'s guard.
`TailRecord::isValid` and `TailRecord::containOffsetWithinEpoch` are
record-format predicates outside the two source files; they are kept
abstract as observed boolean outcomes. -/
structure TailRecord where
  isValid : Bool
  containOffsetWithinEpoch : Bool
  deriving DecidableEq, Repr

/-- Outcome of a synchronous epoch-store entry point: the returned
value, the error code set on failure, and whether a `getData` read was
dispatched to the coordination service (`runRequest`, lines 568-580,
always issues the read and returns 0). -/
structure CallResult where
  rv : Int
  errCode : Option Status
  getDataIssued : Bool
  deriving DecidableEq, Repr

/-- `ZookeeperEpochStore::setLastCleanEpoch` (lines 614-633): rejects a
tail record that is invalid or still carries a within-epoch offset with
`INVALID_PARAM` and `-1`, synchronously, before any coordination-service
call; otherwise dispatches the request via `runRequest`. -/
def setLastCleanEpoch (_logid _lce : Nat) (tail : TailRecord) : CallResult :=
  if !tail.isValid || tail.containOffsetWithinEpoch then
    { rv := -1, errCode := some Status.INVALID_PARAM, getDataIssued := false }
  else
    { rv := 0, errCode := none, getDataIssued := true }

/-- `LOGID_INVALID` (0), the reserved invalid log id. -/
def LOGID_INVALID : Nat := 0

/-- `ZookeeperEpochStore::createOrUpdateMetaData` (lines 635-656):
rejects a log id at or below `LOGID_INVALID` or above `LOGID_MAX` with
`INVALID_PARAM` and `-1` before dispatching; otherwise dispatches.  The
numeric value of `LOGID_MAX` lives outside the two source files, so it
is a parameter here; the guard's shape does not depend on it. -/
def createOrUpdateMetaData (LOGID_MAX : Nat) (logid : Nat) : CallResult :=
  if logid ≤ LOGID_INVALID || LOGID_MAX < logid then
    { rv := -1, errCode := some Status.INVALID_PARAM, getDataIssued := false }
  else
    { rv := 0, errCode := none, getDataIssued := true }

/-! ### Claim C7 -/

/-- Claim C7: every call to `setLastCleanEpoch` with an invalid tail
record returns `-1` with `err = INVALID_PARAM` synchronously and issues
no coordination-service operation; every call with a valid tail record
dispatches the request (a `getData` read is issued). -/
theorem setLastCleanEpoch_tail_guard (logid lce : Nat) (tail : TailRecord) :
    ((tail.isValid = false ∨ tail.containOffsetWithinEpoch = true) →
      setLastCleanEpoch logid lce tail =
        { rv := -1, errCode := some Status.INVALID_PARAM,
          getDataIssued := false }) ∧
    (tail.isValid = true → tail.containOffsetWithinEpoch = false →
      setLastCleanEpoch logid lce tail =
        { rv := 0, errCode := none, getDataIssued := true }) := by
  constructor
  · rintro (h | h) <;> simp [setLastCleanEpoch, h]
  · intro h1 h2
    simp [setLastCleanEpoch, h1, h2]

/-- Witness for claim C7: an invalid tail record is rejected without a
dispatch, a valid one is dispatched. -/
theorem setLastCleanEpoch_tail_guard_witness :
    setLastCleanEpoch 1 5 ⟨false, false⟩ =
      { rv := -1, errCode := some Status.INVALID_PARAM,
        getDataIssued := false } ∧
    setLastCleanEpoch 1 5 ⟨true, false⟩ =
      { rv := 0, errCode := none, getDataIssued := true } := by
  constructor
  · exact (setLastCleanEpoch_tail_guard 1 5 ⟨false, false⟩).1 (Or.inl rfl)
  · exact (setLastCleanEpoch_tail_guard 1 5 ⟨true, false⟩).2 rfl rfl

/-! ### Claim C8 (corrected) -/

/-- Counterexample to claim C8 as stated: at `logid = LOGID_MAX`
(instantiated at the concrete value `2^62 - 1`) the code dispatches the
request and returns `0`, whereas the claim asserts that a log id equal
to `MAX` is rejected with `-1` and `INVALID_PARAM`.  The guard
`logid <= LOGID_INVALID || logid > LOGID_MAX` accepts `LOGID_MAX`
itself. -/
theorem createOrUpdateMetaData_accepts_logid_max :
    createOrUpdateMetaData 4611686018427387903 4611686018427387903 =
      { rv := 0, errCode := none, getDataIssued := true } ∧
    (createOrUpdateMetaData 4611686018427387903
        4611686018427387903).getDataIssued ≠ false := by
  constructor <;> decide

/-- Amended claim C8: `createOrUpdateMetaData` rejects a log id equal
to `INVALID` (0) or strictly greater than `MAX` with `-1` and
`INVALID_PARAM`, without dispatching; every log id with
`INVALID < logid ≤ MAX` — including `MAX` itself — is dispatched. -/
theorem createOrUpdateMetaData_reserved_guard (LOGID_MAX logid : Nat) :
    ((logid = LOGID_INVALID ∨ LOGID_MAX < logid) →
      createOrUpdateMetaData LOGID_MAX logid =
        { rv := -1, errCode := some Status.INVALID_PARAM,
          getDataIssued := false }) ∧
    (LOGID_INVALID < logid → logid ≤ LOGID_MAX →
      createOrUpdateMetaData LOGID_MAX logid =
        { rv := 0, errCode := none, getDataIssued := true }) := by
  constructor
  · rintro (h | h)
    · simp [createOrUpdateMetaData, h, LOGID_INVALID]
    · simp [createOrUpdateMetaData, h]
  · intro h1 h2
    rw [createOrUpdateMetaData]
    split
    · next hcond =>
      exfalso
      simp only [LOGID_INVALID, Bool.or_eq_true, decide_eq_true_eq] at hcond
      omega
    · rfl

/-- Witness for the amended claim C8: log id 0 is rejected, log id
`2^62 - 1 = MAX` is dispatched. -/
theorem createOrUpdateMetaData_reserved_guard_witness :
    createOrUpdateMetaData 4611686018427387903 0 =
      { rv := -1, errCode := some Status.INVALID_PARAM,
        getDataIssued := false } ∧
    createOrUpdateMetaData 4611686018427387903 4611686018427387903 =
      { rv := 0, errCode := none, getDataIssued := true } := by
  constructor
  · exact (createOrUpdateMetaData_reserved_guard 4611686018427387903 0).1
      (Or.inl rfl)
  · exact (createOrUpdateMetaData_reserved_guard 4611686018427387903
      4611686018427387903).2 (by decide) (by decide)

/-! ### Root Ancestor Creator (`CreateRootsState`)

An absolute znode path is represented by its list of segments (the
root "/" is the empty list).  `boost::filesystem::path::parent_path`
drops the last segment. -/

/-- The constructor loop of `CreateRootsState` (lines 246-254): walk
from `root_path` up to "/", pushing each visited path onto the stack
(head of the list = top of the stack).  After the loop the shallowest
ancestor is on top. -/
def pushAncestors (p : List String) (stack : List (List String)) :
    List (List String) :=
  if h : p = [] then stack
  else pushAncestors p.dropLast (p :: stack)
termination_by p.length
decreasing_by
  simp only [List.length_dropLast]
  have hp : 0 < p.length := List.length_pos.mpr h
  omega

/-- `paths_to_create_` right after construction for a given root path. -/
def createRootsStack (root : List String) : List (List String) :=
  pushAncestors root []

/-- The chain of non-empty prefixes of a path, shallowest first.  This
is the specification-side description of the stack contents ("ancestors
created top-down, shallowest to deepest"). -/
def prefixChain (p : List String) : List (List String) :=
  if h : p = [] then []
  else prefixChain p.dropLast ++ [p]
termination_by p.length
decreasing_by
  simp only [List.length_dropLast]
  have hp : 0 < p.length := List.length_pos.mpr h
  omega

/-- The mutable state of the ancestor creator: the stack of paths still
to create and, for verification, the list of paths already popped
(created or observed to exist), in pop order. -/
structure CRState where
  pathsToCreate : List (List String)
  popped : List (List String)
  deriving DecidableEq, Repr

/-- State right after `createRootZnodes` constructs the machine and
before its first `run()` completes. -/
def initCRState (root : List String) : CRState :=
  { pathsToCreate := createRootsStack root, popped := [] }

/-- Observable continuation after one completion of the ancestor
creator: still running (next create scheduled on the new top),
finished (stack empty, the deferred multi-op is re-driven), or aborted
with a status posted as the deferred request's completion. -/
inductive CRStep where
  | running (s : CRState)
  | deferredRetry (popped : List (List String))
  | aborted (s : CRState) (st : Status)
  deriving DecidableEq, Repr

/-- `CreateRootsState::multiOpCF` (lines 275-301): map the return code;
on `OK` or `EXISTS` pop the just-created path and either `run()` again
or, if the stack is empty, re-drive the deferred multi-op
(`createRootZnodesCF`, lines 536-566).  On any other status nothing is
popped and the machine aborts with that status. -/
def multiOpCF (s : CRState) (rc : Int) : CRStep :=
  match s.pathsToCreate with
  | [] => CRStep.aborted s (zkCfStatus rc)
  | top :: rest =>
    if zkCfStatus rc = Status.OK ∨ zkCfStatus rc = Status.EXISTS then
      if rest = [] then CRStep.deferredRetry (s.popped ++ [top])
      else CRStep.running { pathsToCreate := rest, popped := s.popped ++ [top] }
    else CRStep.aborted s (zkCfStatus rc)

/-- Run the ancestor creator over a list of completion return codes,
one per scheduled create. `running s` means the machine is awaiting the
completion of the create of `s.pathsToCreate.head`. -/
def crRun : CRState → List Int → CRStep
  | s, [] => CRStep.running s
  | s, rc :: rest =>
    match multiOpCF s rc with
    | CRStep.running s1 => crRun s1 rest
    | CRStep.deferredRetry l => CRStep.deferredRetry l
    | CRStep.aborted t st => CRStep.aborted t st

theorem pushAncestors_append (p : List String) :
    ∀ stack, pushAncestors p stack = prefixChain p ++ stack := by
  induction p using List.reverseRecOn with
  | nil =>
    intro stack
    rw [pushAncestors, prefixChain]
    simp
  | append_singleton xs x ih =>
    intro stack
    have hne : xs ++ [x] ≠ [] := by simp
    rw [pushAncestors, dif_neg hne, prefixChain, dif_neg hne,
      List.dropLast_concat, ih]
    simp

theorem prefixChain_length (p : List String) :
    (prefixChain p).length = p.length := by
  induction p using List.reverseRecOn with
  | nil =>
    rw [prefixChain]
    simp
  | append_singleton xs x ih =>
    have hne : xs ++ [x] ≠ [] := by simp
    rw [prefixChain, dif_neg hne, List.dropLast_concat]
    simp [ih]

theorem prefixChain_getElem (p : List String) :
    ∀ i : Nat, i < p.length → (prefixChain p)[i]? = some (p.take (i + 1)) := by
  induction p using List.reverseRecOn with
  | nil =>
    intro i hi
    simp at hi
  | append_singleton xs x ih =>
    intro i hi
    have hne : xs ++ [x] ≠ [] := by simp
    rw [prefixChain, dif_neg hne, List.dropLast_concat]
    by_cases hcase : i < xs.length
    · rw [List.getElem?_append_left (by rw [prefixChain_length]; exact hcase),
        ih i hcase, List.take_append_of_le_length (by omega)]
    · have hieq : i = xs.length := by
        simp only [List.length_append, List.length_cons, List.length_nil] at hi
        omega
      subst hieq
      rw [List.getElem?_append_right (by rw [prefixChain_length])]
      rw [prefixChain_length]
      simp only [Nat.sub_self, List.getElem?_cons_zero]
      rw [List.take_of_length_le (by simp)]

theorem multiOpCF_running_inv {s s1 : CRState} {rc : Int}
    {C : List (List String)}
    (h : multiOpCF s rc = CRStep.running s1)
    (hinv : s.popped ++ s.pathsToCreate = C) :
    s1.popped ++ s1.pathsToCreate = C := by
  unfold multiOpCF at h
  split at h
  · cases h
  · next top rest heq =>
    split at h
    · split at h
      · cases h
      · injection h with h
        subst h
        simp only [List.append_assoc, List.singleton_append]
        rw [heq] at hinv
        exact hinv
    · cases h

theorem crRun_inv {C : List (List String)} :
    ∀ (rcs : List Int) (s s1 : CRState),
      crRun s rcs = CRStep.running s1 →
      s.popped ++ s.pathsToCreate = C →
      s1.popped ++ s1.pathsToCreate = C := by
  intro rcs
  induction rcs with
  | nil =>
    intro s s1 h hinv
    injection h with h
    subst h
    exact hinv
  | cons rc rest ih =>
    intro s s1 h hinv
    rw [crRun] at h
    cases hm : multiOpCF s rc with
    | running s2 =>
      rw [hm] at h
      exact ih s2 s1 h (multiOpCF_running_inv hm hinv)
    | deferredRetry l =>
      rw [hm] at h
      cases h
    | aborted t st =>
      rw [hm] at h
      cases h

/-! ### Claim C2 -/

/-- Claim C2: for a root path of at least two segments, the ancestor
creator works top-down: whenever the machine is about to create
`cur` (the current top of the stack), every proper ancestor of `cur`
has already been popped in an earlier step (the popped list is exactly
the shallowest-first prefix chain consumed so far), and a completion
pops a path only when its own creation returned `OK` or `EXISTS` —
any other status aborts with nothing popped. -/
theorem create_roots_top_down (root : List String) (h2 : 2 ≤ root.length)
    (rcs : List Int) (s : CRState)
    (hrun : crRun (initCRState root) rcs = CRStep.running s) :
    (s.popped ++ s.pathsToCreate = prefixChain root) ∧
    (∀ cur rest, s.pathsToCreate = cur :: rest →
      ∀ q : List String, q ≠ [] → q.length < cur.length →
        q = cur.take q.length → q ∈ s.popped) ∧
    (∀ (t : CRState) (rc : Int),
      zkCfStatus rc ≠ Status.OK → zkCfStatus rc ≠ Status.EXISTS →
      multiOpCF t rc = CRStep.aborted t (zkCfStatus rc)) := by
  have hinit : (initCRState root).popped ++ (initCRState root).pathsToCreate =
      prefixChain root := by
    simp [initCRState, createRootsStack, pushAncestors_append]
  have hinv : s.popped ++ s.pathsToCreate = prefixChain root :=
    crRun_inv rcs _ s hrun hinit
  refine ⟨hinv, ?_, ?_⟩
  · intro cur rest hpaths q hq hlen htake
    rw [hpaths] at hinv
    -- length bookkeeping
    have hlens : s.popped.length + (rest.length + 1) = root.length := by
      have := congrArg List.length hinv
      simpa [prefixChain_length] using this
    have hn : s.popped.length < root.length := by omega
    -- the current path is the next prefix of the chain
    have hcur : cur = root.take (s.popped.length + 1) := by
      have h1 : (s.popped ++ cur :: rest)[s.popped.length]? = some cur := by
        rw [List.getElem?_append_right (le_refl s.popped.length)]
        simp
      rw [hinv] at h1
      rw [prefixChain_getElem root s.popped.length hn] at h1
      injection h1 with h1
      exact h1.symm
    -- the ancestor is itself a prefix of the root
    have hcl : cur.length ≤ s.popped.length + 1 := by
      rw [hcur, List.length_take]
      omega
    have hql : 0 < q.length := List.length_pos.mpr hq
    have hmin : min q.length (s.popped.length + 1) = q.length := by omega
    have hq2 : q = root.take q.length := by
      conv_lhs => rw [htake]
      rw [hcur, List.take_take, hmin]
    have hqle : q.length ≤ s.popped.length := by omega
    -- that prefix sits inside the popped part of the chain
    have hpop : s.popped[q.length - 1]? = some q := by
      have h1 : (prefixChain root)[q.length - 1]? =
          some (root.take (q.length - 1 + 1)) :=
        prefixChain_getElem root (q.length - 1) (by omega)
      rw [← hinv, List.getElem?_append_left (by omega)] at h1
      have h2 : q.length - 1 + 1 = q.length := by omega
      rw [h2, ← hq2] at h1
      exact h1
    obtain ⟨hlt, he⟩ := List.getElem?_eq_some.mp hpop
    exact he ▸ List.getElem_mem hlt
  · intro t rc hok hex
    rcases hp : t.pathsToCreate with _ | ⟨top, rest⟩ <;>
      simp [multiOpCF, hp, hok, hex]

/-- Witness for claim C2: for root path `/ld/c1`, after the first
create completes `OK`, the machine has popped `/ld` and is about to
create `/ld/c1`, whose only proper ancestor `/ld` is already popped. -/
theorem create_roots_top_down_witness :
    (([["ld"]] : List (List String)) ++ [["ld", "c1"]] =
      prefixChain ["ld", "c1"]) ∧
    (["ld"] : List String) ∈ ([["ld"]] : List (List String)) := by
  have hstack : createRootsStack ["ld", "c1"] = [["ld"], ["ld", "c1"]] := by
    rw [createRootsStack, pushAncestors]
    simp only [List.dropLast]
    rw [pushAncestors]
    simp only [List.dropLast]
    rw [pushAncestors]
    simp
  have hrun : crRun (initCRState ["ld", "c1"]) [0] =
      CRStep.running { pathsToCreate := [["ld", "c1"]],
                       popped := [["ld"]] } := by
    rw [crRun]
    simp [initCRState, hstack, multiOpCF, zkCfStatus, toStatus,
      ZRUNTIMEINCONSISTENCY, ZOK, crRun]
  have h := create_roots_top_down ["ld", "c1"] (by decide) [0]
    { pathsToCreate := [["ld", "c1"]], popped := [["ld"]] } hrun
  refine ⟨h.1, ?_⟩
  exact h.2.1 ["ld", "c1"] [] rfl ["ld"] (by decide) (by decide) (by decide)

/-! ### Node Health Monitor: sliding-window time series

A per-worker time series is modelled as the list of its recorded
samples `(time, value)`; `sum(a, b)` and `count(a, b)` aggregate the
samples whose timestamp falls in `[a, b)`.  Times and millisecond
durations are integers. -/

/-- One recorded stall sample: timestamp and duration (milliseconds). -/
structure Sample where
  time : Int
  value : Int
  deriving DecidableEq, Repr

/-- `TimeSeries::sum(a, b)`: total of the sample values in `[a, b)`. -/
def tsSum (t : List Sample) (a b : Int) : Int :=
  ((t.filter fun s => a ≤ s.time ∧ s.time < b).map Sample.value).sum

/-- `TimeSeries::count(a, b)`: number of samples in `[a, b)`. -/
def tsCount (t : List Sample) (a b : Int) : Int :=
  ((t.filter fun s => a ≤ s.time ∧ s.time < b).length : Int)

/-- The health-monitor parameters (constructor arguments and the
`kPeriodRange` / `kNumPeriods` header constants).  Worker percentages
are rationals standing for the C++ doubles. -/
structure HMParams where
  sleep_period : Int
  max_queue_stalls_avg : Int
  max_queue_stall_duration : Int
  max_overloaded_worker_percentage : ℚ
  max_stalls_avg : Int
  max_stalled_worker_percentage : ℚ
  periodRange : Nat
  numPeriods : Nat
  deriving DecidableEq, Repr

/-- The `for (int p = 2; p <= 2 * kPeriodRange; ++p)` scan shared by
`isOverloaded` and `isStalled`: return the first `p`, starting at `p`
and trying `n` consecutive values, satisfying `cond`. -/
def firstHit (cond : Nat → Bool) : Nat → Nat → Option Nat
  | _, 0 => none
  | p, n + 1 => if cond p then some p else firstHit cond (p + 1) n

theorem firstHit_eq_some_iff (cond : Nat → Bool) :
    ∀ (n p q : Nat), firstHit cond p n = some q ↔
      (cond q = true ∧ p ≤ q ∧ q < p + n ∧
        ∀ r, p ≤ r → r < q → cond r = false) := by
  intro n
  induction n with
  | zero =>
    intro p q
    constructor
    · intro h
      simp [firstHit] at h
    · rintro ⟨_, h1, h2, _⟩
      exfalso
      omega
  | succ n ih =>
    intro p q
    rw [firstHit]
    by_cases hp : cond p = true
    · rw [if_pos hp]
      constructor
      · intro h
        injection h with h
        subst h
        exact ⟨hp, le_refl p, by omega, fun r hr1 hr2 => absurd hr1 (by omega)⟩
      · rintro ⟨hq, h1, h2, hmin⟩
        by_cases hqp : q = p
        · subst hqp; rfl
        · exfalso
          have hf : cond p = false := hmin p (le_refl p) (by omega)
          rw [hp] at hf
          cases hf
    · rw [if_neg hp]
      have hpf : cond p = false := by
        cases hcp : cond p with
        | true => exact absurd hcp hp
        | false => rfl
      rw [ih (p + 1) q]
      constructor
      · rintro ⟨hq, h1, h2, hmin⟩
        refine ⟨hq, by omega, by omega, ?_⟩
        intro r hr1 hr2
        by_cases hrp : r = p
        · subst hrp; exact hpf
        · exact hmin r (by omega) hr2
      · rintro ⟨hq, h1, h2, hmin⟩
        have hqp : q ≠ p := fun he => by rw [he, hpf] at hq; cases hq
        exact ⟨hq, by omega, by omega, fun r hr1 hr2 => hmin r (by omega) hr2⟩

theorem firstHit_eq_none_iff (cond : Nat → Bool) :
    ∀ (n p : Nat), firstHit cond p n = none ↔
      ∀ r, p ≤ r → r < p + n → cond r = false := by
  intro n
  induction n with
  | zero =>
    intro p
    constructor
    · intro _ r hr1 hr2
      exfalso
      omega
    · intro _
      rfl
  | succ n ih =>
    intro p
    rw [firstHit]
    by_cases hp : cond p = true
    · rw [if_pos hp]
      constructor
      · intro h
        cases h
      · intro h
        have := h p (le_refl p) (by omega)
        rw [hp] at this
        cases this
    · have hpf : cond p = false := by
        cases hcp : cond p with
        | true => exact absurd hcp hp
        | false => rfl
      rw [if_neg hp, ih (p + 1)]
      constructor
      · intro h r hr1 hr2
        by_cases hrp : r = p
        · subst hrp; exact hpf
        · exact h r (by omega) (by omega)
      · intro h r hr1 hr2
        exact h r (by omega) (by omega)

theorem firstHit_isSome_iff (cond : Nat → Bool) (n p : Nat) :
    (firstHit cond p n).isSome = true ↔
      ∃ q, p ≤ q ∧ q < p + n ∧ cond q = true := by
  rw [Option.isSome_iff_ne_none, Ne, firstHit_eq_none_iff]
  push_neg
  constructor
  · rintro ⟨q, hq1, hq2, hq3⟩
    refine ⟨q, hq1, hq2, ?_⟩
    cases hcq : cond q with
    | true => rfl
    | false => exact absurd hcq hq3
  · rintro ⟨q, hq1, hq2, hq3⟩
    exact ⟨q, hq1, hq2, by simp [hq3]⟩

/-! ### Window evaluator (`isOverloaded`, `isStalled`) -/

/-- The per-period overload test of `isOverloaded`'s worker lambda
(lines 98-109): the queue-stall sum over the window
`[now - p*half, now - (p-2)*half)` reaches `max_queue_stall_duration_`
and the average stall reaches `max_queue_stalls_avg_`. -/
def overloadCond (P : HMParams) (t : List Sample) (now half : Int)
    (p : Nat) : Bool :=
  decide (P.max_queue_stall_duration ≤
      tsSum t (now - p * half) (now - ((p : Int) - 2) * half)) &&
  decide (P.max_queue_stalls_avg ≤
      tsSum t (now - p * half) (now - ((p : Int) - 2) * half) /
        tsCount t (now - p * half) (now - ((p : Int) - 2) * half))

/-- The per-period stall test of `isStalled`'s worker lambda (lines
129-144): the window holds at least one stall sample and the average
stall reaches `max_stalls_avg_`.  Unlike `overloadCond`, the count is
explicitly guarded to be positive. -/
def stallCond (P : HMParams) (t : List Sample) (now half : Int)
    (p : Nat) : Bool :=
  decide (0 < tsCount t (now - p * half) (now - ((p : Int) - 2) * half)) &&
  decide (P.max_stalls_avg ≤
      tsSum t (now - p * half) (now - ((p : Int) - 2) * half) /
        tsCount t (now - p * half) (now - ((p : Int) - 2) * half))

/-- One worker's overload verdict: some `p` in `[2, 2*kPeriodRange]`
satisfies `overloadCond` (the loop returns on the first hit). -/
def overloadedWorker (P : HMParams) (t : List Sample) (now half : Int) :
    Bool :=
  (firstHit (overloadCond P t now half) 2 (2 * P.periodRange - 1)).isSome

/-- The first period `p` at which a worker's stall test fires, if any
(the loop in `isStalled` returns at the first hit, and the
critically-stalled increment is decided at that same `p`). -/
def stallHitPeriod (P : HMParams) (t : List Sample) (now half : Int) :
    Option Nat :=
  firstHit (stallCond P t now half) 2 (2 * P.periodRange - 1)

/-- One worker's stall verdict. -/
def stalledWorker (P : HMParams) (t : List Sample) (now half : Int) :
    Bool :=
  (stallHitPeriod P t now half).isSome

/-- One worker's critically-stalled verdict: at the period that made it
stalled, the average stall also reaches `sleep_period_` (lines
138-142). -/
def criticalWorker (P : HMParams) (t : List Sample) (now half : Int) :
    Bool :=
  match stallHitPeriod P t now half with
  | none => false
  | some p =>
      decide (P.sleep_period ≤
        tsSum t (now - p * half) (now - ((p : Int) - 2) * half) /
          tsCount t (now - p * half) (now - ((p : Int) - 2) * half))

/-- `ServerHealthMonitor::StallInfo`. -/
structure StallInfo where
  critically_stalled : Nat
  stalled : Bool
  deriving DecidableEq, Repr

/-- `ServerHealthMonitor::isOverloaded` (lines 86-113): the node is
overloaded when the number of workers with overloaded request queues
reaches `max_overloaded_worker_percentage_` of the worker count. -/
def isOverloaded (P : HMParams) (qs : List (List Sample))
    (now half : Int) : Bool :=
  decide (P.max_overloaded_worker_percentage * (qs.length : ℚ) ≤
    ((qs.countP fun t => overloadedWorker P t now half : Nat) : ℚ))

/-- `ServerHealthMonitor::isStalled` (lines 114-150): the stalled flag
compares the stalled-worker count against
`max_stalled_worker_percentage_` of the worker count, and
`critically_stalled_` counts the workers whose first firing window is
critical. -/
def isStalled (P : HMParams) (ws : List (List Sample))
    (now half : Int) : StallInfo :=
  { critically_stalled := ws.countP fun t => criticalWorker P t now half
    stalled := decide (P.max_stalled_worker_percentage * (ws.length : ℚ) ≤
      ((ws.countP fun t => stalledWorker P t now half : Nat) : ℚ)) }

theorem overloadCond_true_iff (P : HMParams) (t : List Sample)
    (now half : Int) (p : Nat) :
    overloadCond P t now half p = true ↔
      (P.max_queue_stall_duration ≤
          tsSum t (now - p * half) (now - ((p : Int) - 2) * half) ∧
        P.max_queue_stalls_avg ≤
          tsSum t (now - p * half) (now - ((p : Int) - 2) * half) /
            tsCount t (now - p * half) (now - ((p : Int) - 2) * half)) := by
  simp [overloadCond]

theorem stallCond_true_iff (P : HMParams) (t : List Sample)
    (now half : Int) (p : Nat) :
    stallCond P t now half p = true ↔
      (0 < tsCount t (now - p * half) (now - ((p : Int) - 2) * half) ∧
        P.max_stalls_avg ≤
          tsSum t (now - p * half) (now - ((p : Int) - 2) * half) /
            tsCount t (now - p * half) (now - ((p : Int) - 2) * half)) := by
  simp [stallCond]

/-! ### Claim C4 -/

/-- Claim C4: at time `now` with `half_period = sleep_period/2`, a
worker counts as overloaded iff for some `p ∈ [2, 2*period_range]` the
window `[now - p*half, now - (p-2)*half)` of its queue-stall series has
`sum ≥ max_queue_stall_duration` and `sum/count ≥ max_queue_stalls_avg`;
and `isOverloaded` returns true iff the number of overloaded workers is
`≥ max_overloaded_worker_percentage × num_workers`. -/
theorem overload_evaluation (P : HMParams) (qs : List (List Sample))
    (now half : Int) :
    (isOverloaded P qs now half = true ↔
      P.max_overloaded_worker_percentage * (qs.length : ℚ) ≤
        ((qs.countP fun t => overloadedWorker P t now half : Nat) : ℚ)) ∧
    (∀ t : List Sample, overloadedWorker P t now half = true ↔
      ∃ p : Nat, 2 ≤ p ∧ p ≤ 2 * P.periodRange ∧
        P.max_queue_stall_duration ≤
          tsSum t (now - p * half) (now - ((p : Int) - 2) * half) ∧
        P.max_queue_stalls_avg ≤
          tsSum t (now - p * half) (now - ((p : Int) - 2) * half) /
            tsCount t (now - p * half) (now - ((p : Int) - 2) * half)) := by
  constructor
  · simp [isOverloaded]
  · intro t
    rw [overloadedWorker, firstHit_isSome_iff]
    constructor
    · rintro ⟨q, h1, h2, h3⟩
      rw [overloadCond_true_iff] at h3
      exact ⟨q, h1, by omega, h3.1, h3.2⟩
    · rintro ⟨p, h1, h2, h3, h4⟩
      refine ⟨p, h1, by omega, ?_⟩
      rw [overloadCond_true_iff]
      exact ⟨h3, h4⟩

/-- Witness for claim C4: one worker with a single `60 ms` queue-stall
sample inside the probed window is overloaded for
`max_queue_stall_duration = 50`, `max_queue_stalls_avg = 20`. -/
theorem overload_evaluation_witness :
    overloadedWorker
      { sleep_period := 100, max_queue_stalls_avg := 20,
        max_queue_stall_duration := 50,
        max_overloaded_worker_percentage := 1/2, max_stalls_avg := 50,
        max_stalled_worker_percentage := 1/2, periodRange := 2,
        numPeriods := 6 }
      [{ time := -1, value := 60 }] 0 50 = true := by
  refine ((overload_evaluation _ [[{ time := -1, value := 60 }]] 0 50).2
    [{ time := -1, value := 60 }]).mpr ⟨2, by decide, by decide, ?_, ?_⟩
  · decide
  · decide

/-! ### Claim C3 -/

/-- Claim C3: at time `now` with `half_period = sleep_period/2`, a
worker counts as stalled iff for some `p ∈ [2, 2*period_range]` the
window `[now - p*half, now - (p-2)*half)` of its stall series has
`count > 0` and `sum/count ≥ max_stalls_avg`; a stalled worker
additionally counts as critically stalled iff its window — the first
`p` that fired, since the loop returns on the first hit — also has
`sum/count ≥ sleep_period`; and the node-level stalled flag is true iff
the number of stalled workers is
`≥ max_stalled_worker_percentage × num_workers`. -/
theorem stall_evaluation (P : HMParams) (ws : List (List Sample))
    (now half : Int) :
    ((isStalled P ws now half).stalled = true ↔
      P.max_stalled_worker_percentage * (ws.length : ℚ) ≤
        ((ws.countP fun t => stalledWorker P t now half : Nat) : ℚ)) ∧
    (∀ t : List Sample, stalledWorker P t now half = true ↔
      ∃ p : Nat, 2 ≤ p ∧ p ≤ 2 * P.periodRange ∧
        0 < tsCount t (now - p * half) (now - ((p : Int) - 2) * half) ∧
        P.max_stalls_avg ≤
          tsSum t (now - p * half) (now - ((p : Int) - 2) * half) /
            tsCount t (now - p * half) (now - ((p : Int) - 2) * half)) ∧
    (∀ t : List Sample, criticalWorker P t now half = true ↔
      ∃ p : Nat,
        (2 ≤ p ∧ p ≤ 2 * P.periodRange ∧
          0 < tsCount t (now - p * half) (now - ((p : Int) - 2) * half) ∧
          P.max_stalls_avg ≤
            tsSum t (now - p * half) (now - ((p : Int) - 2) * half) /
              tsCount t (now - p * half) (now - ((p : Int) - 2) * half)) ∧
        (∀ r : Nat, 2 ≤ r → r < p →
          ¬(0 < tsCount t (now - r * half) (now - ((r : Int) - 2) * half) ∧
            P.max_stalls_avg ≤
              tsSum t (now - r * half) (now - ((r : Int) - 2) * half) /
                tsCount t (now - r * half) (now - ((r : Int) - 2) * half))) ∧
        P.sleep_period ≤
          tsSum t (now - p * half) (now - ((p : Int) - 2) * half) /
            tsCount t (now - p * half) (now - ((p : Int) - 2) * half)) ∧
    ((isStalled P ws now half).critically_stalled =
      ws.countP fun t => criticalWorker P t now half) := by
  refine ⟨by simp [isStalled], ?_, ?_, rfl⟩
  · intro t
    rw [stalledWorker, stallHitPeriod, firstHit_isSome_iff]
    constructor
    · rintro ⟨q, h1, h2, h3⟩
      rw [stallCond_true_iff] at h3
      exact ⟨q, h1, by omega, h3.1, h3.2⟩
    · rintro ⟨p, h1, h2, h3, h4⟩
      refine ⟨p, h1, by omega, ?_⟩
      rw [stallCond_true_iff]
      exact ⟨h3, h4⟩
  · intro t
    cases hm : stallHitPeriod P t now half with
    | none =>
      simp only [criticalWorker, hm]
      constructor
      · intro h
        cases h
      · rintro ⟨p, ⟨hp2, hpR, hcnt, havg⟩, _, _⟩
        exfalso
        have hnone := (firstHit_eq_none_iff _ _ _).mp hm p hp2 (by omega)
        have ht := (stallCond_true_iff P t now half p).mpr ⟨hcnt, havg⟩
        rw [hnone] at ht
        cases ht
    | some p0 =>
      simp only [criticalWorker, hm, decide_eq_true_eq]
      obtain ⟨hc0, hge0, hlt0, hmin0⟩ :=
        (firstHit_eq_some_iff _ _ _ _).mp hm
      obtain ⟨hcnt0, havg0⟩ := (stallCond_true_iff P t now half p0).mp hc0
      constructor
      · intro hsleep
        refine ⟨p0, ⟨hge0, by omega, hcnt0, havg0⟩, ?_, hsleep⟩
        intro r h1 h2 hcontra
        have ht := (stallCond_true_iff P t now half r).mpr hcontra
        rw [hmin0 r h1 h2] at ht
        cases ht
      · rintro ⟨p, ⟨hp2, hpR, hcnt, havg⟩, hmin, hsleep⟩
        have hpp0 : p = p0 := by
          by_contra hne
          rcases Nat.lt_or_ge p p0 with hlt | hge
          · have hf := hmin0 p hp2 hlt
            have ht := (stallCond_true_iff P t now half p).mpr ⟨hcnt, havg⟩
            rw [hf] at ht
            cases ht
          · exact hmin p0 hge0 (by omega) ⟨hcnt0, havg0⟩
        subst hpp0
        exact hsleep

/-- Witness for claim C3: one worker with a single `120 ms` stall
sample (≥ `sleep_period = 100`) is critically stalled. -/
theorem stall_evaluation_witness :
    criticalWorker
      { sleep_period := 100, max_queue_stalls_avg := 20,
        max_queue_stall_duration := 50,
        max_overloaded_worker_percentage := 1/2, max_stalls_avg := 50,
        max_stalled_worker_percentage := 1/2, periodRange := 2,
        numPeriods := 6 }
      [{ time := -1, value := 120 }] 0 50 = true := by
  refine ((stall_evaluation _ [[{ time := -1, value := 120 }]] 0 50).2.2.1
    [{ time := -1, value := 120 }]).mpr
    ⟨2, ⟨by decide, by decide, by decide, by decide⟩, ?_, by decide⟩
  intro r h1 h2
  exact absurd (lt_of_le_of_lt h1 h2) (lt_irrefl 2)

/-! ### Claim C10 -/

/-- Claim C10: in `isOverloaded`'s per-worker predicate the average
`period_sum / period_count` is evaluated only after
`period_sum ≥ max_queue_stall_duration` holds, so under
`max_queue_stall_duration > 0` the division is never reached with
`period_count = 0` (a window with zero samples has zero sum); in
`isStalled` the division is instead guarded by the explicit
`count > 0` conjunct of `stallCond`. -/
theorem overload_avg_division_guard (P : HMParams) (t : List Sample)
    (now half : Int) (p : Nat)
    (hpos : 0 < P.max_queue_stall_duration)
    (hsum : P.max_queue_stall_duration ≤
      tsSum t (now - p * half) (now - ((p : Int) - 2) * half)) :
    0 < tsCount t (now - p * half) (now - ((p : Int) - 2) * half) ∧
    (∀ r : Nat, stallCond P t now half r = true →
      0 < tsCount t (now - r * half) (now - ((r : Int) - 2) * half)) := by
  constructor
  · by_contra hc
    push_neg at hc
    rw [tsCount] at hc
    have hlen : (t.filter fun s =>
        (now - p * half) ≤ s.time ∧
          s.time < (now - ((p : Int) - 2) * half)).length = 0 := by
      omega
    have hnil : (t.filter fun s =>
        (now - p * half) ≤ s.time ∧
          s.time < (now - ((p : Int) - 2) * half)) = [] :=
      List.length_eq_zero.mp hlen
    rw [tsSum, hnil] at hsum
    simp at hsum
    omega
  · intro r hr
    exact ((stallCond_true_iff P t now half r).mp hr).1

/-- Witness for claim C10: with `max_queue_stall_duration = 50` and one
`60 ms` sample in the window, the window count is positive. -/
theorem overload_avg_division_guard_witness :
    0 < tsCount [{ time := -1, value := 60 }]
      ((0 : Int) - (2 : Nat) * 50) ((0 : Int) - (((2 : Nat) : Int) - 2) * 50) := by
  exact (overload_avg_division_guard
    { sleep_period := 100, max_queue_stalls_avg := 20,
      max_queue_stall_duration := 50,
      max_overloaded_worker_percentage := 1/2, max_stalls_avg := 50,
      max_stalled_worker_percentage := 1/2, periodRange := 2,
      numPeriods := 6 }
    [{ time := -1, value := 60 }] 0 50 2 (by decide) (by decide)).1

/-! ### NHM periodic tick (`processReports`)

The hysteresis state timer is kept abstract: `fbNeg` is
`negativeFeedback`, `fbPos now` is `positiveFeedback(now)` and `cur` is
`getCurrentValue`, all opaque to this tick logic (the timer type lives
outside the two source files). -/

/-- `ServerHealthMonitor::InternalInfo`: the executor-private state
read by one tick. -/
structure HMInternalInfo where
  worker_stalls : List (List Sample)
  worker_queue_stalls : List (List Sample)
  watchdog_delay : Bool
  total_stalled_workers : Nat
  health_monitor_delay : Bool

/-- The published node state. -/
inductive NodeState where
  | HEALTHY
  | OVERLOADED
  | UNHEALTHY
  deriving DecidableEq, Repr

/-- `TimeSeries::update(now)`: retire samples older than the series
retention window (`kNumPeriods * sleep_period_`). -/
def tsUpdate (now retention : Int) (t : List Sample) : List Sample :=
  t.filter fun s => now - retention < s.time

/-- `ServerHealthMonitor::updateVariables` (lines 77-85): refresh every
series and apply `positiveFeedback(now)` for timekeeping. -/
def updateVariables {Timer : Type} (fbPos : Int → Timer → Timer)
    (P : HMParams) (info : HMInternalInfo) (now : Int) (timer : Timer) :
    HMInternalInfo × Timer :=
  ({ info with
      worker_stalls :=
        info.worker_stalls.map
          (tsUpdate now ((P.numPeriods : Int) * P.sleep_period)),
      worker_queue_stalls :=
        info.worker_queue_stalls.map
          (tsUpdate now ((P.numPeriods : Int) * P.sleep_period)) },
   fbPos now timer)

/-- `ServerHealthMonitor::calculateNegativeSignal` (lines 151-168):
evaluate the window predicates with `half_period = sleep_period / 2`,
then apply one `negativeFeedback` + `positiveFeedback(now)` pair if any
negative signal is present, and another pair if any worker is
critically stalled. -/
def calculateNegativeSignal {Timer : Type} (fbNeg : Timer → Timer)
    (fbPos : Int → Timer → Timer) (P : HMParams) (info : HMInternalInfo)
    (now : Int) (timer : Timer) : StallInfo × Bool × Timer :=
  let stall := isStalled P info.worker_stalls now (P.sleep_period / 2)
  let over := isOverloaded P info.worker_queue_stalls now (P.sleep_period / 2)
  let timer1 :=
    if info.health_monitor_delay || info.watchdog_delay ||
        decide (0 < info.total_stalled_workers) || stall.stalled then
      fbPos now (fbNeg timer)
    else timer
  let timer2 :=
    if 0 < stall.critically_stalled then fbPos now (fbNeg timer1) else timer1
  (stall, over, timer2)

/-- What one tick publishes. -/
structure TickResult (Timer : Type) where
  node_state : NodeState
  stall_info : StallInfo
  overloaded : Bool
  timer : Timer

/-- `ServerHealthMonitor::processReports` (lines 170-182): refresh,
evaluate, feed the state timer, and derive the published node state
from the post-feedback timer value and the overload flag. -/
def processReports {Timer : Type} (fbNeg : Timer → Timer)
    (fbPos : Int → Timer → Timer) (cur : Timer → Int) (P : HMParams)
    (info : HMInternalInfo) (now : Int) (timer : Timer) : TickResult Timer :=
  let ut := updateVariables fbPos P info now timer
  let r := calculateNegativeSignal fbNeg fbPos P ut.1 now ut.2
  { node_state :=
      if P.sleep_period < cur r.2.2 then NodeState.UNHEALTHY
      else if r.2.1 then NodeState.OVERLOADED else NodeState.HEALTHY,
    stall_info := r.1,
    overloaded := r.2.1,
    timer := r.2.2 }

/-! ### Claim C5 -/

/-- Claim C5: on every tick, after window evaluation and state-timer
feedback, the published node state equals `UNHEALTHY` if
`sleep_period < state_timer.current_value()`, else `OVERLOADED` if that
tick's overload flag is set, else `HEALTHY`; and the
negative+positive feedback pair is applied once if any of
`health_monitor_delay`, `watchdog_delay`,
`total_stalled_workers > 0`, or the stalled flag holds, and a second
time if `critically_stalled > 0` (on top of the timekeeping
`positiveFeedback(now)` from `updateVariables`). -/
theorem nhm_tick_decision {Timer : Type} (fbNeg : Timer → Timer)
    (fbPos : Int → Timer → Timer) (cur : Timer → Int) (P : HMParams)
    (info : HMInternalInfo) (now : Int) (timer : Timer) :
    processReports fbNeg fbPos cur P info now timer =
      let stalls := info.worker_stalls.map
        (tsUpdate now ((P.numPeriods : Int) * P.sleep_period))
      let queues := info.worker_queue_stalls.map
        (tsUpdate now ((P.numPeriods : Int) * P.sleep_period))
      let stall := isStalled P stalls now (P.sleep_period / 2)
      let over := isOverloaded P queues now (P.sleep_period / 2)
      let t0 := fbPos now timer
      let t1 :=
        if info.health_monitor_delay || info.watchdog_delay ||
            decide (0 < info.total_stalled_workers) || stall.stalled then
          fbPos now (fbNeg t0)
        else t0
      let t2 :=
        if 0 < stall.critically_stalled then fbPos now (fbNeg t1) else t1
      { node_state :=
          if P.sleep_period < cur t2 then NodeState.UNHEALTHY
          else if over then NodeState.OVERLOADED else NodeState.HEALTHY,
        stall_info := stall,
        overloaded := over,
        timer := t2 } := by
  rfl

end LD
